import Mathlib

set_option maxHeartbeats 1000000

/-!
Shallow embedding of `rsbuild-plugin-block-imports` (src/index.ts).

The plugin has three cooperating parts, all embedded below directly from
the TypeScript source:

* a pattern registry / option validator (`pluginBlockImports` setup code),
* a dependency scanner (the `finishModules` handler body) that builds a
  map from resource paths to the set of forbidden patterns matched by the
  module's dependency request strings,
* a locator (`findImportLocations`) and reporter (`printErrorReport`)
  that re-read flagged files, locate occurrences by textual search and
  render the diagnostic report, returning the occurrence count.

JavaScript strings are modelled as Lean `String`s (source inputs in the
claims are ASCII, where JS UTF-16 indices and Lean char indices agree).
The file system is modelled as a function `String → Option String`
(`none` models a read that throws).  JS regular expressions used by the
locator are alternation-free, so "the regex matches at index i" is a
deterministic check, embedded below as an executable predicate per form.
-/

namespace BlockImports

/-- Single quote character, as a string (used to build source-text literals). -/
def sq : String := String.mk ['\'']

/-- Membership test of JS `String.prototype.includes`: `sub` occurs as a
contiguous substring of `s`. -/
def jsIncludes (s sub : String) : Bool := decide (sub.data <:+: s.data)

/-- Membership test of JS `String.prototype.startsWith`. -/
def jsStartsWith (s p : String) : Bool := p.data.isPrefixOf s.data

/-- Characters matched by the JS regex class `\s` (the forms occurring in
source text; exotic Unicode whitespace is not modelled). -/
def jsWs (c : Char) : Bool :=
  c = ' ' || c = '\t' || c = '\n' || c = '\r' || c = '\x0b' || c = '\x0c' || c = '\xa0'

/-- JS `String.prototype.trim`: strip leading and trailing whitespace. -/
def jsTrim (s : String) : String :=
  String.mk (((s.data.dropWhile jsWs).reverse.dropWhile jsWs).reverse)

/-- Character-level split on a line feed; an empty text yields one empty
line, a trailing line feed yields a trailing empty line, as JS `split` does. -/
def splitLinesList : List Char → List (List Char)
  | [] => [[]]
  | c :: rest =>
    if c = '\n' then [] :: splitLinesList rest
    else
      match splitLinesList rest with
      | [] => [[c]]
      | l :: ls => (c :: l) :: ls

/-- JS `String.prototype.split('\n')`. -/
def splitLines (content : String) : List String :=
  (splitLinesList content.data).map String.mk

/-- JS `String.prototype.padEnd(n)` (pad with spaces on the right). -/
def padEnd (s : String) (n : Nat) : String :=
  s ++ String.mk (List.replicate (n - s.length) ' ')

/-- JS `String.prototype.replace(pat, repl)` with a string first argument:
replace the first occurrence only. -/
def replaceFirstList (s pat repl : List Char) : List Char :=
  match s with
  | [] => if pat = [] then repl else []
  | c :: rest =>
    if pat.isPrefixOf (c :: rest) then repl ++ (c :: rest).drop pat.length
    else c :: replaceFirstList rest pat repl

/-- String wrapper for `replaceFirstList`; models `absolutePath.replace(cwd, '')`. -/
def jsReplaceFirst (s pat repl : String) : String :=
  String.mk (replaceFirstList s.data pat.data repl.data)

/-- Configuration for a forbidden import pattern (`ForbiddenImport` in the source). -/
structure ForbiddenImport where
  pattern : String
  alternative : String
  reason : Option String := none
deriving Repr, DecidableEq

/-- Value supplied for the `forbiddenImports` option.  `missing` models a
falsy value (absent/`undefined`/`null`), `notArray` a truthy non-array value,
`arr` an actual array. -/
inductive ForbiddenImportsOption where
  | missing
  | notArray
  | arr (rules : List ForbiddenImport)

/-- An entry of the `exclude` option: a literal substring or a `RegExp`,
the latter modelled by its `test` predicate on paths. -/
inductive ExcludePattern where
  | str (s : String)
  | pred (test : String → Bool)

/-- Raw plugin options (`PluginBlockImportsOptions` in the source);
`none` in an optional field models an absent field, resolved by `??`. -/
structure PluginBlockImportsOptions where
  forbiddenImports : ForbiddenImportsOption
  exclude : Option (List ExcludePattern) := none
  failOnError : Option Bool := none
  errorHeader : Option String := none
  colors : Option Bool := none

/-- Options with all defaults applied (`Required<PluginBlockImportsOptions>`). -/
structure ResolvedOptions where
  forbiddenImports : List ForbiddenImport
  exclude : List ExcludePattern
  failOnError : Bool
  errorHeader : String
  colors : Bool

/-- Option validation and default resolution performed at the top of
`pluginBlockImports`.  The source throws
`[plugin-block-imports] forbiddenImports option is required and must be an array`
when `!options.forbiddenImports || !Array.isArray(options.forbiddenImports)`;
note that an empty array is truthy and is an array, so it passes. -/
def pluginBlockImports (options : PluginBlockImportsOptions) :
    Except String ResolvedOptions :=
  match options.forbiddenImports with
  | .missing =>
    .error "[plugin-block-imports] forbiddenImports option is required and must be an array"
  | .notArray =>
    .error "[plugin-block-imports] forbiddenImports option is required and must be an array"
  | .arr rules =>
    .ok { forbiddenImports := rules
          exclude := options.exclude.getD []
          failOnError := options.failOnError.getD true
          errorHeader := options.errorHeader.getD "MODULE FEDERATION BUILD ERROR"
          colors := options.colors.getD true }

/-- ANSI escape codes (`ANSI_COLORS` in the source). -/
def ansiRed : String := "\x1b[31m"

/-- ANSI yellow code. -/
def ansiYellow : String := "\x1b[33m"

/-- ANSI cyan code. -/
def ansiCyan : String := "\x1b[36m"

/-- ANSI gray code. -/
def ansiGray : String := "\x1b[90m"

/-- ANSI bold code. -/
def ansiBold : String := "\x1b[1m"

/-- ANSI reset code. -/
def ansiReset : String := "\x1b[0m"

/-- The record of color-wrapping functions returned by `createColorizer`. -/
structure Colorizer where
  red : String → String
  yellow : String → String
  cyan : String → String
  gray : String → String
  bold : String → String

/-- Embedding of `createColorizer`: identity functions when colors are
disabled, ANSI-wrapping functions when enabled. -/
def createColorizer (enabled : Bool) : Colorizer :=
  if !enabled then
    { red := fun s => s
      yellow := fun s => s
      cyan := fun s => s
      gray := fun s => s
      bold := fun s => s }
  else
    { red := fun s => ansiRed ++ s ++ ansiReset
      yellow := fun s => ansiYellow ++ s ++ ansiReset
      cyan := fun s => ansiCyan ++ s ++ ansiReset
      gray := fun s => ansiGray ++ s ++ ansiReset
      bold := fun s => ansiBold ++ s ++ ansiReset }

/-- Embedding of `shouldExclude`: `node_modules` paths are always excluded,
then each configured exclusion is tried (substring for strings, `test` for
`RegExp`s). -/
def shouldExclude (filePath : String) (excludePatterns : List ExcludePattern) : Bool :=
  if jsIncludes filePath "node_modules" then true
  else
    excludePatterns.any fun p =>
      match p with
      | .str s => jsIncludes filePath s
      | .pred test => test filePath

/-- A dependency object of the module graph; each field is a possibly
absent string (`dep.request` / `dep.userRequest`). -/
structure Dependency where
  request : Option String
  userRequest : Option String

/-- A module object of the graph: `module.resource` (absent for synthetic
modules) and `module.dependencies`. -/
structure Module where
  resource : Option String
  dependencies : List Dependency

/-- JS `a || b` on an optional string: the empty string is falsy. -/
def jsOrStr (a : Option String) (b : String) : String :=
  match a with
  | none => b
  | some s => if s = "" then b else s

/-- Embedding of `dep.request || dep.userRequest || ''`. -/
def requestOf (d : Dependency) : String :=
  jsOrStr d.request (jsOrStr d.userRequest "")

/-- JS `Set.prototype.add` on an insertion-ordered list: append when absent. -/
def addUnique (l : List String) (x : String) : List String :=
  if x ∈ l then l else l ++ [x]

/-- The `new Set(resolvedOptions.forbiddenImports.map(f => f.pattern))` of the
source: insertion-ordered deduplication, first occurrence kept. -/
def forbiddenPatternsOf (rules : List ForbiddenImport) : List String :=
  (rules.map fun r => r.pattern).foldl addUnique []

/-- The `for (const pattern of forbiddenPatterns) ... break` loop: the first
registered pattern that is a prefix of the request, if any. -/
def firstMatch (patterns : List String) (request : String) : Option String :=
  patterns.find? fun p => jsStartsWith request p

/-- The `errorMap` update: `errorMap.get(resource).add(pattern)`, creating the
entry when absent.  The map is an insertion-ordered association list and each
value is an insertion-ordered set. -/
def addPattern (m : List (String × List String)) (res pat : String) :
    List (String × List String) :=
  match m with
  | [] => [(res, [pat])]
  | (r, ps) :: rest =>
    if r = res then (r, addUnique ps pat) :: rest
    else (r, ps) :: addPattern rest res pat

/-- Processing of one dependency of a non-excluded module inside the scan loop. -/
def depStep (patterns : List String) (res : String)
    (acc : List (String × List String)) (dep : Dependency) :
    List (String × List String) :=
  match firstMatch patterns (requestOf dep) with
  | none => acc
  | some p => addPattern acc res p

/-- Processing of one module of the graph inside the scan loop: skip when the
resource is absent or excluded, otherwise fold over its dependencies. -/
def scanModule (patterns : List String) (excl : List ExcludePattern)
    (acc : List (String × List String)) (mod : Module) :
    List (String × List String) :=
  match mod.resource with
  | none => acc
  | some res =>
    if shouldExclude res excl then acc
    else mod.dependencies.foldl (depStep patterns res) acc

/-- The full scan of the `finishModules` handler: fold the module list into
the `errorMap`, starting from the empty map. -/
def scanModules (patterns : List String) (excl : List ExcludePattern)
    (modules : List Module) : List (String × List String) :=
  modules.foldl (scanModule patterns excl) []

/-- Quote characters of the regex class `['"]`. -/
def isQuote (c : Char) : Bool := c = '\'' || c = '"'

/-- Literal occurrence test: `lit` occurs in `s` starting exactly at index `i`. -/
def litAt (s : List Char) (i : Nat) (lit : List Char) : Bool :=
  lit.isPrefixOf (s.drop i)

/-- Length of the maximal whitespace run of `s` starting at index `i`
(the number of characters `\s+` / `\s*` consumes; the following regex atoms
are disjoint from `\s`, so the greedy length is forced). -/
def wsRun (s : List Char) (i : Nat) : Nat :=
  ((s.drop i).takeWhile jsWs).length

/-- The regex tail `(?:/[^'"]*)?['"]` tested at index `q` (the index just
after the escaped pattern): either a quote immediately, or a `/` followed by
a quote somewhere later (the class `[^'"]*` stops exactly at the first
quote). -/
def tailMatch (s : List Char) (q : Nat) : Bool :=
  match s[q]? with
  | some c =>
    if isQuote c then true
    else if c = '/' then (s.drop (q + 1)).any isQuote
    else false
  | none => false

/-- The suffix `['"]<pattern>(?:/[^'"]*)?['"]` tested at index `j`. -/
def quotePatTail (s : List Char) (j : Nat) (pat : List Char) : Bool :=
  match s[j]? with
  | some c => isQuote c && litAt s (j + 1) pat && tailMatch s (j + 1 + pat.length)
  | none => false

/-- Match of `from\s+['"]pat(?:/[^'"]*)?['"]` starting at index `i`.
The escaping `importPattern.replace(/[.*+?^${}()|[\]\\]/g, '\\$&')` of the
source makes the pattern a literal, embedded here as `litAt`. -/
def fromFormAt (s : List Char) (pat : List Char) (i : Nat) : Bool :=
  litAt s i "from".data &&
    (decide (1 ≤ wsRun s (i + 4)) && quotePatTail s (i + 4 + wsRun s (i + 4)) pat)

/-- Match of `require\s*\(\s*['"]pat(?:/[^'"]*)?['"]` starting at index `i`. -/
def requireFormAt (s : List Char) (pat : List Char) (i : Nat) : Bool :=
  litAt s i "require".data &&
    (s[i + 7 + wsRun s (i + 7)]? == some '(' &&
      quotePatTail s (i + 7 + wsRun s (i + 7) + 1 + wsRun s (i + 7 + wsRun s (i + 7) + 1)) pat)

/-- Match of `import\s*\(\s*['"]pat(?:/[^'"]*)?['"]` starting at index `i`. -/
def importFormAt (s : List Char) (pat : List Char) (i : Nat) : Bool :=
  litAt s i "import".data &&
    (s[i + 6 + wsRun s (i + 6)]? == some '(' &&
      quotePatTail s (i + 6 + wsRun s (i + 6) + 1 + wsRun s (i + 6 + wsRun s (i + 6) + 1)) pat)

/-- Index of the leftmost match of a form, as returned in `match.index` by
JS `String.prototype.match` (the engine tries each start index from 0). -/
def firstMatchIdx (s : List Char) (f : Nat → Bool) : Option Nat :=
  (List.range s.length).find? f

/-- One entry of the locator output (`ImportError` in the source). -/
structure ImportError where
  importName : String
  line : Nat
  column : Nat
  lineContent : String
deriving Repr, DecidableEq

/-- The inner loop of `findImportLocations` for one line and one pattern: the
three forms are tried in the fixed order from / require / import, and the
first matching form's `match.index` is the column. -/
def lineMatchColumn (lineContent : String) (pat : String) : Option Nat :=
  let s := lineContent.data
  let p := pat.data
  match firstMatchIdx s (fromFormAt s p) with
  | some i => some i
  | none =>
    match firstMatchIdx s (requireFormAt s p) with
    | some i => some i
    | none => firstMatchIdx s (importFormAt s p)

/-- Occurrences recorded for one physical line: one entry per requested
pattern whose first matching form matched, with 1-indexed line number,
match-start column and trimmed line text. -/
def lineOccurrences (imports : List String) (idx : Nat) (lineContent : String) :
    List ImportError :=
  imports.filterMap fun pat =>
    (lineMatchColumn lineContent pat).map fun col =>
      { importName := pat, line := idx + 1, column := col
        lineContent := jsTrim lineContent }

/-- The `lines.forEach` loop of `findImportLocations`, carrying the 0-indexed
line counter. -/
def scanFileLines (imports : List String) : Nat → List String → List ImportError
  | _, [] => []
  | idx, lc :: rest =>
    lineOccurrences imports idx lc ++ scanFileLines imports (idx + 1) rest

/-- Result of the locator: the occurrence list together with the number of
`console.warn` calls emitted (the source warns once per unreadable file). -/
structure LocatorResult where
  errors : List ImportError
  warnings : Nat
deriving Repr, DecidableEq

/-- Embedding of `findImportLocations`: read the file, split on line feeds
and scan; when the read throws, warn once and return one degraded occurrence
per requested pattern.  The function is total: it never throws. -/
def findImportLocations (fs : String → Option String) (filePath : String)
    (imports : List String) : LocatorResult :=
  match fs filePath with
  | some content => { errors := scanFileLines imports 0 (splitLines content), warnings := 0 }
  | none =>
    { errors := imports.map fun imp =>
        { importName := imp, line := 0, column := 0, lineContent := "" }
      warnings := 1 }

/-- Last-registered-wins lookup of `alternativesMap` (a JS `Map` built with
`set` in registration order, then read with `get`). -/
def alternativeFor (forbiddenImports : List ForbiddenImport) (p : String) :
    Option String :=
  (forbiddenImports.reverse.find? fun r => r.pattern == p).map fun r => r.alternative

/-- The diagnostic lines printed for one occurrence inside `printErrorReport`
(path with `:line:column` suffix when the line is known, the forbidden import
name, the raw line when non-empty, then a blank line). -/
def occLines (c : Colorizer) (relativePath : String) (err : ImportError) :
    List String :=
  let location := if err.line > 0 then ":" ++ toString err.line ++ ":" ++ toString err.column else ""
  [c.cyan ("  " ++ relativePath ++ location),
   c.red ("    ✖ Forbidden import: " ++ c.bold err.importName)] ++
    (if err.lineContent = "" then [] else [c.gray ("    │ " ++ err.lineContent)]) ++ [""]

/-- The body of the inner `importErrors.forEach` of `printErrorReport`: emit
the occurrence's lines, record the import name in `foundImports` and bump
`errorCount`. -/
def occStep (c : Colorizer) (relativePath : String)
    (acc : List String × List String × Nat) (err : ImportError) :
    List String × List String × Nat :=
  (acc.1 ++ occLines c relativePath err, addUnique acc.2.1 err.importName, acc.2.2 + 1)

/-- The body of the outer `errorMap.forEach` of `printErrorReport`: shorten
the path, locate the occurrences and fold over them; the fourth component
accumulates locator warnings. -/
def fileStep (fs : String → Option String) (c : Colorizer) (cwd : String)
    (acc : List String × List String × Nat × Nat) (entry : String × List String) :
    List String × List String × Nat × Nat :=
  let relativePath := jsReplaceFirst entry.1 cwd ""
  let res := findImportLocations fs entry.1 entry.2
  let inner := res.errors.foldl (occStep c relativePath) (acc.1, acc.2.1, acc.2.2.1)
  (inner.1, inner.2.1, inner.2.2, acc.2.2.2 + res.warnings)

/-- Output of the reporter: the lines written with `console.error`, the
returned error count, and the number of warnings. -/
structure Report where
  lines : List String
  errorCount : Nat
  warnings : Nat

/-- The fixed boxed-header lines of the report (61 box-drawing dashes in the
source literals, matching the `padEnd(59)` field width). -/
def headerLines (c : Colorizer) (errorHeader : String) : List String :=
  ["",
   c.red (c.bold ("  ╭" ++ String.mk (List.replicate 61 '─') ++ "╮")),
   c.red (c.bold ("  │  " ++ padEnd errorHeader 59 ++ "│")),
   c.red (c.bold ("  ╰" ++ String.mk (List.replicate 61 '─') ++ "╯")),
   "",
   c.red (c.bold "  ✖ Forbidden imports detected in source files"),
   c.gray "    These imports will not work in the remote environment.",
   ""]

/-- Embedding of `printErrorReport`: header, per-occurrence diagnostics,
alternative suggestions for the distinct imports actually reported, and the
summary line; returns the occurrence count. -/
def printErrorReport (fs : String → Option String)
    (errorMap : List (String × List String))
    (forbiddenImports : List ForbiddenImport)
    (options : ResolvedOptions) (cwd : String) : Report :=
  let c := createColorizer options.colors
  let folded := errorMap.foldl (fileStep fs c cwd) (headerLines c options.errorHeader, [], 0, 0)
  let foundImports := folded.2.1
  let errorCount := folded.2.2.1
  let altLines :=
    if foundImports.length > 0 then
      [c.yellow "  Suggested alternatives:"] ++
        (foundImports.filterMap fun imp =>
          (alternativeFor forbiddenImports imp).map fun alt =>
            c.gray ("    • " ++ imp ++ " → " ++ alt)) ++ [""]
    else []
  let summary := toString errorCount ++ " error(s) found." ++
    (if options.failOnError then " Build failed." else "")
  { lines := folded.1 ++ altLines ++ [c.red (c.bold ("  " ++ summary)), ""]
    errorCount := errorCount
    warnings := folded.2.2.2 }

/-- The message of the error thrown by the `finishModules` handler when the
build fails. -/
def failureMessage (errorCount : Nat) : String :=
  "[plugin-block-imports] " ++ toString errorCount ++
    " forbidden import(s) detected. " ++ "See the error report above for details."

/-- Outcome of one `finishModules` invocation: the scan map, the report when
the reporter was invoked (`none` when the map was empty), and the thrown
failure message, if any. -/
structure BuildOutcome where
  finding : List (String × List String)
  report : Option Report
  failure : Option String

/-- Embedding of the `finishModules` handler body of `pluginBlockImports`:
scan all modules, and when the map is non-empty print the report and raise
the failure when `failOnError` is set and the count is positive.  The failure
value exists only alongside the fully computed report, mirroring the source
order (report printed before the throw). -/
def runFinishModules (options : ResolvedOptions) (fs : String → Option String)
    (cwd : String) (modules : List Module) : BuildOutcome :=
  let patterns := forbiddenPatternsOf options.forbiddenImports
  let errorMap := scanModules patterns options.exclude modules
  if errorMap.length > 0 then
    let report := printErrorReport fs errorMap options.forbiddenImports options cwd
    { finding := errorMap
      report := some report
      failure :=
        if options.failOnError && decide (report.errorCount > 0) then
          some (failureMessage report.errorCount)
        else none }
  else { finding := errorMap, report := none, failure := none }

/-! ### Helper lemmas -/

/-- Folding preserves any invariant preserved by each step taken from the list. -/
theorem foldl_preserve {α β : Type _} (f : β → α → β) (P : β → Prop) :
    ∀ (l : List α), (∀ b, ∀ a ∈ l, P b → P (f b a)) → ∀ b, P b → P (l.foldl f b) := by
  intro l
  induction l with
  | nil => intro _ b hb; exact hb
  | cons x xs ih =>
    intro h b hb
    exact ih (fun b' a ha => h b' a (List.mem_cons_of_mem x ha)) (f b x)
      (h b x (List.mem_cons_self x xs) hb)

/-- Appending on the left preserves substring membership of the right part. -/
theorem jsIncludes_append_left (a b : String) : jsIncludes (a ++ b) b = true := by
  unfold jsIncludes
  rw [decide_eq_true_eq, String.data_append]
  exact (List.suffix_append a.data b.data).isInfix

/-- The first-match result of `find?` splits the list at the found element,
with every earlier element failing the test. -/
theorem find?_split {α : Type _} (f : α → Bool) :
    ∀ (l : List α) (a : α), l.find? f = some a →
      ∃ l1 l2, l = l1 ++ a :: l2 ∧ f a = true ∧ ∀ x ∈ l1, f x = false := by
  intro l
  induction l with
  | nil => intro a h; simp [List.find?] at h
  | cons x xs ih =>
    intro a h
    by_cases hx : f x = true
    · rw [List.find?_cons_of_pos xs hx] at h
      obtain rfl : x = a := by injection h
      exact ⟨[], xs, rfl, hx, by intro y hy; simp at hy⟩
    · rw [List.find?_cons_of_neg xs hx] at h
      obtain ⟨l1, l2, rfl, hfa, hprev⟩ := ih a h
      refine ⟨x :: l1, l2, rfl, hfa, ?_⟩
      intro y hy
      rcases List.mem_cons.mp hy with rfl | hy'
      · exact Bool.not_eq_true _ ▸ (by simpa using hx)
      · exact hprev y hy'

/-- Membership survives `addUnique` (both branches keep existing elements). -/
theorem mem_addUnique_of_mem {l : List String} {x y : String} (h : y ∈ l) :
    y ∈ addUnique l x := by
  unfold addUnique
  split
  · exact h
  · exact List.mem_append_left _ h

/-- The inserted element is a member of `addUnique`. -/
theorem mem_addUnique_self (l : List String) (x : String) : x ∈ addUnique l x := by
  unfold addUnique
  split
  · assumption
  · exact List.mem_append_right _ (List.mem_singleton.mpr rfl)

/-- `addUnique` preserves `Nodup` (it only appends an absent element). -/
theorem nodup_addUnique {l : List String} (x : String) (h : l.Nodup) :
    (addUnique l x).Nodup := by
  unfold addUnique
  split
  · exact h
  · exact List.nodup_append.mpr ⟨h, List.nodup_singleton x,
      List.disjoint_singleton.mpr (by assumption)⟩

/-- Association-list lookup at the head key. -/
theorem lookup_cons_self {β : Type _} (r : String) (b : β) (rest : List (String × β)) :
    List.lookup r ((r, b) :: rest) = some b := by
  simp [List.lookup]

/-- Association-list lookup skips a head with a different key. -/
theorem lookup_cons_ne {β : Type _} {res r : String} (h : res ≠ r) (b : β)
    (rest : List (String × β)) :
    List.lookup res ((r, b) :: rest) = List.lookup res rest := by
  simp [List.lookup, beq_false_of_ne h]

/-- The scan map holds pattern `p` for path `res`. -/
def findingHas (m : List (String × List String)) (res p : String) : Prop :=
  ∃ ps, m.lookup res = some ps ∧ p ∈ ps

/-- Every association value of the scan map is duplicate-free. -/
def valuesNodup (m : List (String × List String)) : Prop :=
  ∀ e ∈ m, e.2.Nodup

/-- After `addPattern m res p`, the map holds `p` for `res`. -/
theorem findingHas_addPattern_self (m : List (String × List String)) (res p : String) :
    findingHas (addPattern m res p) res p := by
  induction m with
  | nil =>
    exact ⟨[p], by simp [addPattern, List.lookup], List.mem_singleton.mpr rfl⟩
  | cons e rest ih =>
    obtain ⟨r, ps⟩ := e
    by_cases hr : r = res
    · subst hr
      refine ⟨addUnique ps p, ?_, mem_addUnique_self ps p⟩
      simp [addPattern, List.lookup]
    · obtain ⟨qs, hl, hm⟩ := ih
      refine ⟨qs, ?_, hm⟩
      simp only [addPattern, if_neg hr]
      rw [lookup_cons_ne (fun hc => hr hc.symm)]
      exact hl


/-- Unfolding equation of `addPattern` at a matching head. -/
theorem addPattern_cons_eq (r res p : String) (ps : List String)
    (rest : List (String × List String)) (h : r = res) :
    addPattern ((r, ps) :: rest) res p = (r, addUnique ps p) :: rest := by
  simp [addPattern, h]

/-- Unfolding equation of `addPattern` at a non-matching head. -/
theorem addPattern_cons_ne (r res p : String) (ps : List String)
    (rest : List (String × List String)) (h : ¬r = res) :
    addPattern ((r, ps) :: rest) res p = (r, ps) :: addPattern rest res p := by
  simp [addPattern, h]

/-- Unfolding equation of `depStep` when no pattern matches the request. -/
theorem depStep_none (patterns : List String) (res : String)
    (acc : List (String × List String)) (dep : Dependency)
    (h : firstMatch patterns (requestOf dep) = none) :
    depStep patterns res acc dep = acc := by
  simp [depStep, h]

/-- Unfolding equation of `depStep` when a pattern matches the request. -/
theorem depStep_some (patterns : List String) (res : String)
    (acc : List (String × List String)) (dep : Dependency) (p : String)
    (h : firstMatch patterns (requestOf dep) = some p) :
    depStep patterns res acc dep = addPattern acc res p := by
  simp [depStep, h]

/-- Unfolding equation of `scanModule` for a synthetic module. -/
theorem scanModule_no_resource (patterns : List String) (excl : List ExcludePattern)
    (acc : List (String × List String)) (mod : Module) (h : mod.resource = none) :
    scanModule patterns excl acc mod = acc := by
  simp [scanModule, h]

/-- Unfolding equation of `scanModule` for an excluded module. -/
theorem scanModule_excluded (patterns : List String) (excl : List ExcludePattern)
    (acc : List (String × List String)) (mod : Module) (res : String)
    (h : mod.resource = some res) (hx : shouldExclude res excl = true) :
    scanModule patterns excl acc mod = acc := by
  simp [scanModule, h, hx]

/-- Unfolding equation of `scanModule` for a scanned module. -/
theorem scanModule_active (patterns : List String) (excl : List ExcludePattern)
    (acc : List (String × List String)) (mod : Module) (res : String)
    (h : mod.resource = some res) (hx : shouldExclude res excl = false) :
    scanModule patterns excl acc mod =
      mod.dependencies.foldl (depStep patterns res) acc := by
  simp [scanModule, h, hx]

/-- Existing entries survive any later `addPattern`. -/
theorem findingHas_addPattern (m : List (String × List String)) (res p res' p' : String)
    (h : findingHas m res p) : findingHas (addPattern m res' p') res p := by
  induction m with
  | nil =>
    obtain ⟨ps, hl, _⟩ := h
    simp [List.lookup] at hl
  | cons e rest ih =>
    obtain ⟨r, ps⟩ := e
    obtain ⟨qs, hl, hm⟩ := h
    by_cases hr : r = res'
    · rw [addPattern_cons_eq r res' p' ps rest hr]
      by_cases hres : res = r
      · subst hres
        rw [lookup_cons_self] at hl
        have hpq : ps = qs := Option.some.inj hl
        exact ⟨addUnique ps p', lookup_cons_self _ _ _,
          mem_addUnique_of_mem (by rw [hpq]; exact hm)⟩
      · rw [lookup_cons_ne hres] at hl
        exact ⟨qs, by rw [lookup_cons_ne hres]; exact hl, hm⟩
    · rw [addPattern_cons_ne r res' p' ps rest hr]
      by_cases hres : res = r
      · subst hres
        rw [lookup_cons_self] at hl
        have hpq : ps = qs := Option.some.inj hl
        exact ⟨ps, lookup_cons_self _ _ _, by rw [hpq]; exact hm⟩
      · rw [lookup_cons_ne hres] at hl
        obtain ⟨qs', hl', hm'⟩ := ih ⟨qs, hl, hm⟩
        exact ⟨qs', by rw [lookup_cons_ne hres]; exact hl', hm'⟩

/-- `addPattern` at a different key leaves a lookup unchanged. -/
theorem lookup_addPattern_ne (m : List (String × List String)) {res res' : String}
    (p : String) (h : res ≠ res') :
    (addPattern m res' p).lookup res = m.lookup res := by
  induction m with
  | nil => simp [addPattern, List.lookup, beq_false_of_ne h]
  | cons e rest ih =>
    obtain ⟨r, ps⟩ := e
    by_cases hr : r = res'
    · rw [addPattern_cons_eq r res' p ps rest hr]
      have hne : res ≠ r := fun hc => h (hc.trans hr)
      rw [lookup_cons_ne hne, lookup_cons_ne hne]
    · rw [addPattern_cons_ne r res' p ps rest hr]
      by_cases hres : res = r
      · subst hres
        rw [lookup_cons_self, lookup_cons_self]
      · rw [lookup_cons_ne hres, lookup_cons_ne hres]
        exact ih

/-- Existing entries survive a dependency step. -/
theorem findingHas_depStep (patterns : List String) (r : String)
    (acc : List (String × List String)) (dep : Dependency) {res p : String}
    (h : findingHas acc res p) : findingHas (depStep patterns r acc dep) res p := by
  cases hm : firstMatch patterns (requestOf dep) with
  | none => rw [depStep_none patterns r acc dep hm]; exact h
  | some q =>
    rw [depStep_some patterns r acc dep q hm]
    exact findingHas_addPattern acc res p r q h

/-- Existing entries survive scanning a further module. -/
theorem findingHas_scanModule (patterns : List String) (excl : List ExcludePattern)
    (acc : List (String × List String)) (mod : Module) {res p : String}
    (h : findingHas acc res p) :
    findingHas (scanModule patterns excl acc mod) res p := by
  cases hres : mod.resource with
  | none => rw [scanModule_no_resource patterns excl acc mod hres]; exact h
  | some r =>
    cases hx : shouldExclude r excl with
    | true => rw [scanModule_excluded patterns excl acc mod r hres hx]; exact h
    | false =>
      rw [scanModule_active patterns excl acc mod r hres hx]
      exact foldl_preserve (depStep patterns r) (fun b => findingHas b res p)
        mod.dependencies (fun b a _ hb => findingHas_depStep patterns r b a hb) acc h

/-- Folding the dependency list of a module whose resource is `res` records
the first matching pattern of any of its dependencies. -/
theorem findingHas_depsFold (patterns : List String) (res : String)
    (deps : List Dependency) (dep : Dependency) (hdep : dep ∈ deps) {p : String}
    (hm : firstMatch patterns (requestOf dep) = some p)
    (acc : List (String × List String)) :
    findingHas (deps.foldl (depStep patterns res) acc) res p := by
  obtain ⟨l1, l2, rfl⟩ := List.append_of_mem hdep
  rw [List.foldl_append, List.foldl_cons,
    depStep_some patterns res _ dep p hm]
  exact foldl_preserve (depStep patterns res) (fun b => findingHas b res p) l2
    (fun b a _ hb => findingHas_depStep patterns res b a hb) _
    (findingHas_addPattern_self _ res p)

/-- A non-excluded module with resource `res` and a dependency whose request
first-matches `p` puts `(res, p)` into the final scan map. -/
theorem findingHas_scanModules (patterns : List String) (excl : List ExcludePattern)
    (modules : List Module) (mod : Module) (hmod : mod ∈ modules) {res : String}
    (hres : mod.resource = some res) (hex : shouldExclude res excl = false)
    (dep : Dependency) (hdep : dep ∈ mod.dependencies) {p : String}
    (hm : firstMatch patterns (requestOf dep) = some p) :
    findingHas (scanModules patterns excl modules) res p := by
  obtain ⟨l1, l2, rfl⟩ := List.append_of_mem hmod
  unfold scanModules
  rw [List.foldl_append, List.foldl_cons,
    scanModule_active patterns excl _ mod res hres hex]
  exact foldl_preserve (scanModule patterns excl) (fun b => findingHas b res p) l2
    (fun b a _ hb => findingHas_scanModule patterns excl b a hb) _
    (findingHas_depsFold patterns res mod.dependencies dep hdep hm _)

/-- `addPattern` preserves duplicate-freeness of all association values. -/
theorem valuesNodup_addPattern (m : List (String × List String)) (res p : String)
    (h : valuesNodup m) : valuesNodup (addPattern m res p) := by
  induction m with
  | nil =>
    intro e he
    simp only [addPattern] at he
    rw [List.mem_singleton.mp he]
    exact List.nodup_singleton p
  | cons hd rest ih =>
    obtain ⟨r, ps⟩ := hd
    by_cases hr : r = res
    · rw [addPattern_cons_eq r res p ps rest hr]
      intro e he
      rcases List.mem_cons.mp he with rfl | he'
      · exact nodup_addUnique p (h (r, ps) (List.mem_cons_self _ _))
      · exact h e (List.mem_cons_of_mem _ he')
    · rw [addPattern_cons_ne r res p ps rest hr]
      intro e he
      rcases List.mem_cons.mp he with rfl | he'
      · exact h (r, ps) (List.mem_cons_self _ _)
      · exact ih (fun e' he'' => h e' (List.mem_cons_of_mem _ he'')) e he'

/-- The whole scan keeps all association values duplicate-free. -/
theorem valuesNodup_scanModules (patterns : List String) (excl : List ExcludePattern)
    (modules : List Module) : valuesNodup (scanModules patterns excl modules) := by
  unfold scanModules
  refine foldl_preserve (scanModule patterns excl) valuesNodup modules ?_ []
    (by intro e he; simp at he)
  intro b mod _ hb
  cases hres : mod.resource with
  | none => rw [scanModule_no_resource patterns excl b mod hres]; exact hb
  | some r =>
    cases hx : shouldExclude r excl with
    | true => rw [scanModule_excluded patterns excl b mod r hres hx]; exact hb
    | false =>
      rw [scanModule_active patterns excl b mod r hres hx]
      refine foldl_preserve (depStep patterns r) valuesNodup mod.dependencies ?_ b hb
      intro b' dep _ hb'
      cases hm : firstMatch patterns (requestOf dep) with
      | none => rw [depStep_none patterns r b' dep hm]; exact hb'
      | some q =>
        rw [depStep_some patterns r b' dep q hm]
        exact valuesNodup_addPattern b' r q hb'

/-- A successful lookup in a map with duplicate-free values yields a
duplicate-free value. -/
theorem nodup_of_lookup (m : List (String × List String)) (res : String)
    (ps : List String) (h : valuesNodup m) (hl : m.lookup res = some ps) :
    ps.Nodup := by
  induction m with
  | nil => simp [List.lookup] at hl
  | cons e rest ih =>
    obtain ⟨r, qs⟩ := e
    by_cases hres : res = r
    · subst hres
      rw [lookup_cons_self] at hl
      have hpq : qs = ps := Option.some.inj hl
      rw [← hpq]
      exact h (res, qs) (List.mem_cons_self _ _)
    · rw [lookup_cons_ne hres] at hl
      exact ih (fun e' he' => h e' (List.mem_cons_of_mem _ he')) hl

/-- A dependency step never creates an entry for an unrelated path. -/
theorem lookup_depStep_none (patterns : List String) (r : String)
    (acc : List (String × List String)) (dep : Dependency) {res : String}
    (hor : firstMatch patterns (requestOf dep) = none ∨ res ≠ r)
    (h : acc.lookup res = none) : (depStep patterns r acc dep).lookup res = none := by
  cases hm : firstMatch patterns (requestOf dep) with
  | none => rw [depStep_none patterns r acc dep hm]; exact h
  | some q =>
    rw [depStep_some patterns r acc dep q hm]
    rcases hor with hnone | hne
    · rw [hnone] at hm; exact absurd hm (by simp)
    · rw [lookup_addPattern_ne acc q hne]; exact h

/-- A module contributes no entry for `res` when it is excluded, carries a
different resource, or has no matching dependency. -/
theorem lookup_scanModule_none (patterns : List String) (excl : List ExcludePattern)
    (acc : List (String × List String)) (mod : Module) {res : String}
    (hmod : mod.resource = some res →
      shouldExclude res excl = true ∨
        ∀ dep ∈ mod.dependencies, firstMatch patterns (requestOf dep) = none)
    (h : acc.lookup res = none) :
    (scanModule patterns excl acc mod).lookup res = none := by
  cases hres : mod.resource with
  | none => rw [scanModule_no_resource patterns excl acc mod hres]; exact h
  | some r =>
    cases hx : shouldExclude r excl with
    | true => rw [scanModule_excluded patterns excl acc mod r hres hx]; exact h
    | false =>
      rw [scanModule_active patterns excl acc mod r hres hx]
      by_cases hrr : res = r
      · subst hrr
        rcases hmod hres with hex | hdeps
        · rw [hex] at hx; exact absurd hx (by simp)
        · refine foldl_preserve (depStep patterns res)
            (fun b => b.lookup res = none) mod.dependencies ?_ acc h
          intro b dep hdep hb
          exact lookup_depStep_none patterns res b dep (Or.inl (hdeps dep hdep)) hb
      · refine foldl_preserve (depStep patterns r)
          (fun b => b.lookup res = none) mod.dependencies ?_ acc h
        intro b dep _ hb
        exact lookup_depStep_none patterns r b dep (Or.inr hrr) hb

/-- A path for which no module contributes an entry is absent from the scan map. -/
theorem lookup_scanModules_none (patterns : List String) (excl : List ExcludePattern)
    (modules : List Module) {res : String}
    (hmods : ∀ mod ∈ modules, mod.resource = some res →
      shouldExclude res excl = true ∨
        ∀ dep ∈ mod.dependencies, firstMatch patterns (requestOf dep) = none) :
    (scanModules patterns excl modules).lookup res = none := by
  unfold scanModules
  refine foldl_preserve (scanModule patterns excl)
    (fun b => b.lookup res = none) modules ?_ [] rfl
  intro b mod hmod hb
  exact lookup_scanModule_none patterns excl b mod (hmods mod hmod) hb

/-! ### Claim theorems -/

/-- C9: when the colors option is false, every color-wrapping function
(red, yellow, cyan, gray, bold) is the identity on strings, so colorized
report segments carry no ANSI escape sequences; when colors is true, every
colorized segment is the original text wrapped by its color code and
terminated by the reset code. -/
theorem colorizer_identity_or_wrap (s : String) :
    ((createColorizer false).red s = s ∧
      (createColorizer false).yellow s = s ∧
      (createColorizer false).cyan s = s ∧
      (createColorizer false).gray s = s ∧
      (createColorizer false).bold s = s) ∧
    ((createColorizer true).red s = ansiRed ++ s ++ ansiReset ∧
      (createColorizer true).yellow s = ansiYellow ++ s ++ ansiReset ∧
      (createColorizer true).cyan s = ansiCyan ++ s ++ ansiReset ∧
      (createColorizer true).gray s = ansiGray ++ s ++ ansiReset ∧
      (createColorizer true).bold s = ansiBold ++ s ++ ansiReset) :=
  ⟨⟨rfl, rfl, rfl, rfl, rfl⟩, ⟨rfl, rfl, rfl, rfl, rfl⟩⟩

/-- C5 counterexample: the claim says setup fails fast when `forbiddenImports`
is an empty sequence, but the source only rejects falsy or non-array values;
an empty array is truthy and is an array, so setup succeeds on it. -/
theorem validation_accepts_empty_array :
    pluginBlockImports ⟨.arr [], none, none, none, none⟩ =
      .ok ⟨[], [], true, "MODULE FEDERATION BUILD ERROR", true⟩ := rfl

/-- C5 (amended): plugin setup fails fast with the configuration error
whenever the `forbiddenImports` option is missing (falsy) or is not a proper
sequence type; for every array of rules — empty or not — setup succeeds with
the defaults applied. -/
theorem validation_rejects_missing_or_non_array :
    (∀ (ex : Option (List ExcludePattern)) (f : Option Bool)
        (h : Option String) (c : Option Bool),
      pluginBlockImports ⟨.missing, ex, f, h, c⟩ =
        .error "[plugin-block-imports] forbiddenImports option is required and must be an array") ∧
    (∀ (ex : Option (List ExcludePattern)) (f : Option Bool)
        (h : Option String) (c : Option Bool),
      pluginBlockImports ⟨.notArray, ex, f, h, c⟩ =
        .error "[plugin-block-imports] forbiddenImports option is required and must be an array") ∧
    (∀ (rules : List ForbiddenImport) (ex : Option (List ExcludePattern))
        (f : Option Bool) (h : Option String) (c : Option Bool),
      pluginBlockImports ⟨.arr rules, ex, f, h, c⟩ =
        .ok ⟨rules, ex.getD [], f.getD true,
          h.getD "MODULE FEDERATION BUILD ERROR", c.getD true⟩) :=
  ⟨fun _ _ _ _ => rfl, fun _ _ _ _ => rfl, fun _ _ _ _ _ => rfl⟩

/-- C7: when the file read fails, the locator never throws (it is a total
function); it emits exactly one warning and returns exactly one degraded
occurrence per requested pattern, each with line 0, column 0 and empty line
text, so the report proceeds. -/
theorem locator_degrades_on_read_failure (fs : String → Option String)
    (filePath : String) (imports : List String)
    (hfs : fs filePath = none) (_hne : imports ≠ []) :
    findImportLocations fs filePath imports =
      ⟨imports.map fun imp => ⟨imp, 0, 0, ""⟩, 1⟩ ∧
    (findImportLocations fs filePath imports).errors.length = imports.length ∧
    ∀ e ∈ (findImportLocations fs filePath imports).errors,
      e.line = 0 ∧ e.column = 0 ∧ e.lineContent = "" := by
  have hres : findImportLocations fs filePath imports =
      ⟨imports.map fun imp => ⟨imp, 0, 0, ""⟩, 1⟩ := by
    unfold findImportLocations
    rw [hfs]
  refine ⟨hres, ?_, ?_⟩
  · rw [hres]
    exact List.length_map imports _
  · rw [hres]
    intro e he
    obtain ⟨imp, _, rfl⟩ := List.mem_map.mp he
    exact ⟨rfl, rfl, rfl⟩

/-- C7 witness: a concrete unreadable file with two requested patterns. -/
theorem locator_degrades_on_read_failure_witness :
    findImportLocations (fun _ => none) "/gone.ts" ["next/image", "next-intl"] =
      ⟨[⟨"next/image", 0, 0, ""⟩, ⟨"next-intl", 0, 0, ""⟩], 1⟩ :=
  (locator_degrades_on_read_failure (fun _ => none) "/gone.ts"
    ["next/image", "next-intl"] rfl (by decide)).1

/-- C6: a file whose resource path contains the substring `node_modules` is
never a key of the scan map, for every pattern list, every exclusion
configuration and every module graph; moreover such a module is skipped
without its dependencies being inspected (the scan step returns the
accumulator unchanged whatever the dependencies are). -/
theorem node_modules_always_excluded (patterns : List String)
    (excl : List ExcludePattern) (modules : List Module) (res : String)
    (h : jsIncludes res "node_modules" = true) :
    (scanModules patterns excl modules).lookup res = none ∧
    ∀ (acc : List (String × List String)) (mod : Module),
      mod.resource = some res → scanModule patterns excl acc mod = acc := by
  have hex : shouldExclude res excl = true := by
    unfold shouldExclude
    rw [h]
    simp
  constructor
  · exact lookup_scanModules_none patterns excl modules
      (fun mod _ _ => Or.inl hex)
  · intro acc mod hres
    exact scanModule_excluded patterns excl acc mod res hres hex

/-- C6 witness: a concrete `node_modules` module with a matching dependency
request is still absent from the scan map. -/
theorem node_modules_always_excluded_witness :
    (scanModules ["next/image"] []
      [⟨some "/app/node_modules/pkg/a.js", [⟨some "next/image", none⟩]⟩]).lookup
        "/app/node_modules/pkg/a.js" = none :=
  (node_modules_always_excluded ["next/image"] []
    [⟨some "/app/node_modules/pkg/a.js", [⟨some "next/image", none⟩]⟩]
    "/app/node_modules/pkg/a.js" (by decide)).1

/-- File system for the C8 scenario: one readable source file whose only
specifier is the registered pattern followed by a non-slash character. -/
def fsDisagree : String → Option String := fun p =>
  if p = "/src/a.ts" then
    some ("import x from " ++ sq ++ "next/routerx" ++ sq ++ ";\n")
  else none

/-- Resolved options for the C8 scenario (`failOnError` enabled). -/
def optsDisagree : ResolvedOptions :=
  ⟨[⟨"next/router", "window.location or custom navigation", none⟩], [], true,
    "MODULE FEDERATION BUILD ERROR", false⟩

/-- Module graph for the C8 scenario: one module whose only dependency
request is `next/routerx`. -/
def modsDisagree : List Module :=
  [⟨some "/src/a.ts", [⟨some "next/routerx", none⟩]⟩]

/-- C8: the scanner and locator disagree on this input and the build is not
aborted despite a non-empty finding: the request `next/routerx` starts with
the registered pattern `next/router`, so the file enters the scan map, but
all three locator forms require a quote or `/` directly after the pattern,
so zero occurrences are found, the reporter returns 0, and no failure is
raised even though `failOnError` is enabled. -/
theorem scanner_locator_disagreement :
    jsStartsWith "next/routerx" "next/router" = true ∧
    (runFinishModules optsDisagree fsDisagree "/" modsDisagree).finding =
      [("/src/a.ts", ["next/router"])] ∧
    (findImportLocations fsDisagree "/src/a.ts" ["next/router"]).errors = [] ∧
    ((runFinishModules optsDisagree fsDisagree "/" modsDisagree).report.map
      Report.errorCount) = some 0 ∧
    optsDisagree.failOnError = true ∧
    (runFinishModules optsDisagree fsDisagree "/" modsDisagree).failure = none :=
  ⟨by decide, by decide, by decide, by decide, by decide, by decide⟩

/-- C2: when `failOnError` is true and the reporter's returned error count is
positive, a failure is raised whose message contains
`<N> forbidden import(s) detected. See the error report above for details.`
with `N` the error count, and it is raised only alongside the fully computed
report (the report value is the complete `printErrorReport` output); when
`failOnError` is false, no failure is ever raised. -/
theorem failure_raised_after_report (options : ResolvedOptions)
    (fs : String → Option String) (cwd : String) (modules : List Module) :
    (∀ rep, (runFinishModules options fs cwd modules).report = some rep →
      options.failOnError = true → rep.errorCount > 0 →
      (runFinishModules options fs cwd modules).failure =
        some (failureMessage rep.errorCount) ∧
      jsIncludes (failureMessage rep.errorCount)
        (toString rep.errorCount ++
          " forbidden import(s) detected. See the error report above for details.") = true ∧
      rep = printErrorReport fs
        (scanModules (forbiddenPatternsOf options.forbiddenImports)
          options.exclude modules) options.forbiddenImports options cwd) ∧
    (options.failOnError = false →
      (runFinishModules options fs cwd modules).failure = none) := by
  have hmsg : ∀ n : Nat, failureMessage n =
      "[plugin-block-imports] " ++
        (toString n ++
          " forbidden import(s) detected. See the error report above for details.") := by
    intro n
    unfold failureMessage
    rw [String.append_assoc, String.append_assoc]
    rfl
  by_cases hlen : (scanModules (forbiddenPatternsOf options.forbiddenImports)
      options.exclude modules).length > 0
  · have hrun : runFinishModules options fs cwd modules =
        ⟨scanModules (forbiddenPatternsOf options.forbiddenImports)
            options.exclude modules,
          some (printErrorReport fs
            (scanModules (forbiddenPatternsOf options.forbiddenImports)
              options.exclude modules) options.forbiddenImports options cwd),
          if options.failOnError &&
              decide ((printErrorReport fs
                (scanModules (forbiddenPatternsOf options.forbiddenImports)
                  options.exclude modules) options.forbiddenImports
                  options cwd).errorCount > 0) then
            some (failureMessage (printErrorReport fs
              (scanModules (forbiddenPatternsOf options.forbiddenImports)
                options.exclude modules) options.forbiddenImports
                options cwd).errorCount)
          else none⟩ := by
      simp only [runFinishModules]
      rw [if_pos hlen]
    rw [hrun]
    constructor
    · intro rep hrep hfail hcnt
      have hrep' : rep = printErrorReport fs
          (scanModules (forbiddenPatternsOf options.forbiddenImports)
            options.exclude modules) options.forbiddenImports options cwd :=
        Option.some.inj hrep.symm
      refine ⟨?_, ?_, hrep'⟩
      · rw [← hrep', hfail]
        simp [hcnt]
      · rw [hmsg rep.errorCount]
        exact jsIncludes_append_left _ _
    · intro hfail
      rw [hfail]
      simp
  · have hrun : runFinishModules options fs cwd modules =
        ⟨scanModules (forbiddenPatternsOf options.forbiddenImports)
            options.exclude modules, none, none⟩ := by
      simp only [runFinishModules]
      rw [if_neg hlen]
    rw [hrun]
    exact ⟨fun rep hrep => by simp at hrep, fun _ => rfl⟩

/-- File system for the C2 witness: one readable file with one violation. -/
def fsFail : String → Option String := fun p =>
  if p = "/src/b.ts" then
    some ("import Link from " ++ sq ++ "next/link" ++ sq ++ ";")
  else none

/-- Resolved options for the C2 witness (`failOnError` enabled). -/
def optsFail : ResolvedOptions :=
  ⟨[⟨"next/link", "plain anchor", none⟩], [], true,
    "MODULE FEDERATION BUILD ERROR", false⟩

/-- Module graph for the C2 witness. -/
def modsFail : List Module := [⟨some "/src/b.ts", [⟨some "next/link", none⟩]⟩]

/-- C2 witness: one concrete violation with `failOnError` enabled raises the
failure with the count-bearing message. -/
theorem failure_raised_after_report_witness :
    (runFinishModules optsFail fsFail "/" modsFail).failure =
      some (failureMessage 1) ∧
    jsIncludes (failureMessage 1)
      "1 forbidden import(s) detected. See the error report above for details." = true := by
  have h := (failure_raised_after_report optsFail fsFail "/" modsFail).1
    (printErrorReport fsFail
      (scanModules (forbiddenPatternsOf optsFail.forbiddenImports)
        optsFail.exclude modsFail) optsFail.forbiddenImports optsFail "/")
    rfl rfl (by decide)
  obtain ⟨h1, h2, -⟩ := h
  have hcnt : (printErrorReport fsFail
      (scanModules (forbiddenPatternsOf optsFail.forbiddenImports)
        optsFail.exclude modsFail) optsFail.forbiddenImports
        optsFail "/").errorCount = 1 := by decide
  rw [hcnt] at h1 h2
  have hstr : toString (1 : Nat) ++
      " forbidden import(s) detected. See the error report above for details." =
      "1 forbidden import(s) detected. See the error report above for details." := rfl
  rw [hstr] at h2
  exact ⟨h1, h2⟩

/-- The occurrence fold increments the count once per occurrence. -/
theorem occStep_count (c : Colorizer) (rp : String) :
    ∀ (errors : List ImportError) (ls fnd : List String) (cnt : Nat),
      (errors.foldl (occStep c rp) (ls, fnd, cnt)).2.2 = cnt + errors.length := by
  intro errors
  induction errors with
  | nil => intro ls fnd cnt; simp
  | cons e rest ih =>
    intro ls fnd cnt
    rw [List.foldl_cons]
    show (rest.foldl (occStep c rp)
      (ls ++ occLines c rp e, addUnique fnd e.importName, cnt + 1)).2.2 =
      cnt + (e :: rest).length
    rw [ih]
    simp [Nat.add_comm, Nat.add_assoc, Nat.add_left_comm]

/-- The file fold accumulates the per-file occurrence counts. -/
theorem fileStep_count (fs : String → Option String) (c : Colorizer) (cwd : String) :
    ∀ (entries : List (String × List String)) (ls fnd : List String) (cnt w : Nat),
      (entries.foldl (fileStep fs c cwd) (ls, fnd, cnt, w)).2.2.1 =
        cnt + (entries.map fun e =>
          (findImportLocations fs e.1 e.2).errors.length).sum := by
  intro entries
  induction entries with
  | nil => intro ls fnd cnt w; simp
  | cons e rest ih =>
    intro ls fnd cnt w
    rw [List.foldl_cons]
    show (rest.foldl (fileStep fs c cwd) (fileStep fs c cwd (ls, fnd, cnt, w) e)).2.2.1 = _
    have hstep : fileStep fs c cwd (ls, fnd, cnt, w) e =
        (((findImportLocations fs e.1 e.2).errors.foldl
            (occStep c (jsReplaceFirst e.1 cwd "")) (ls, fnd, cnt)).1,
          ((findImportLocations fs e.1 e.2).errors.foldl
            (occStep c (jsReplaceFirst e.1 cwd "")) (ls, fnd, cnt)).2.1,
          ((findImportLocations fs e.1 e.2).errors.foldl
            (occStep c (jsReplaceFirst e.1 cwd "")) (ls, fnd, cnt)).2.2,
          w + (findImportLocations fs e.1 e.2).warnings) := rfl
    rw [hstep, ih, occStep_count]
    simp [Nat.add_assoc]

/-- C3: the reporter's returned error count equals the total number of
occurrence diagnostics (one per occurrence, summed over all files), not the
number of distinct files or patterns, and the report ends with the summary
line `<N> error(s) found.` with ` Build failed.` appended exactly when
`failOnError` is enabled (followed by the final blank line). -/
theorem reporter_count_and_summary (fs : String → Option String)
    (errorMap : List (String × List String))
    (forbiddenImports : List ForbiddenImport)
    (options : ResolvedOptions) (cwd : String) :
    (printErrorReport fs errorMap forbiddenImports options cwd).errorCount =
      (errorMap.map fun e =>
        (findImportLocations fs e.1 e.2).errors.length).sum ∧
    ∃ pre, (printErrorReport fs errorMap forbiddenImports options cwd).lines =
      pre ++ [(createColorizer options.colors).red
        ((createColorizer options.colors).bold ("  " ++
          toString (printErrorReport fs errorMap forbiddenImports
            options cwd).errorCount ++ " error(s) found." ++
          (if options.failOnError then " Build failed." else ""))), ""] := by
  constructor
  · show (errorMap.foldl (fileStep fs (createColorizer options.colors) cwd)
      (headerLines (createColorizer options.colors) options.errorHeader,
        [], 0, 0)).2.2.1 = _
    rw [fileStep_count]
    exact Nat.zero_add _
  · exact ⟨_, rfl⟩

/-- File system for the C3 witness scenario: one file with two different
forbidden imports, each occurring on one line. -/
def fsTwo : String → Option String := fun p =>
  if p = "/x.ts" then
    some ("import a from " ++ sq ++ "next/image" ++ sq ++ ";\n" ++
      "import b from " ++ sq ++ "next/link" ++ sq ++ ";")
  else none

/-- Resolved options for the C3 example scenario. -/
def optsTwo : ResolvedOptions :=
  ⟨[⟨"next/image", "plain img", none⟩, ⟨"next/link", "plain anchor", none⟩],
    [], true, "MODULE FEDERATION BUILD ERROR", false⟩

/-- C3 concrete example: one file with two different forbidden imports, each
appearing on one line, yields error count 2 (not 1 file or 2 patterns merged),
computed through the general theorem. -/
theorem reporter_count_and_summary_witness :
    (printErrorReport fsTwo [("/x.ts", ["next/image", "next/link"])]
      optsTwo.forbiddenImports optsTwo "/").errorCount = 2 := by
  have h := (reporter_count_and_summary fsTwo
    [("/x.ts", ["next/image", "next/link"])]
    optsTwo.forbiddenImports optsTwo "/").1
  rw [h]
  decide

/-- C1: for every module with a non-excluded resource path, a dependency
request that starts with some registered pattern puts the path into the scan
map with the first pattern in registration order whose prefix matches,
recorded at most once per file (the matched set is duplicate-free); a
dependency matching no pattern contributes nothing, and a path none of whose
modules' dependency requests match any pattern is absent from the map. -/
theorem scanner_prefix_matching (patterns : List String) (excl : List ExcludePattern)
    (modules : List Module) (res : String) :
    (∀ mod ∈ modules, mod.resource = some res → shouldExclude res excl = false →
      ∀ dep ∈ mod.dependencies, ∀ p ∈ patterns,
        jsStartsWith (requestOf dep) p = true →
        ∃ p0 l1 l2 ps,
          firstMatch patterns (requestOf dep) = some p0 ∧
          patterns = l1 ++ p0 :: l2 ∧
          jsStartsWith (requestOf dep) p0 = true ∧
          (∀ q ∈ l1, jsStartsWith (requestOf dep) q = false) ∧
          (scanModules patterns excl modules).lookup res = some ps ∧
          p0 ∈ ps ∧ ps.Nodup) ∧
    ((∀ mod ∈ modules, mod.resource = some res →
        ∀ dep ∈ mod.dependencies, firstMatch patterns (requestOf dep) = none) →
      (scanModules patterns excl modules).lookup res = none) := by
  constructor
  · intro mod hmod hres hex dep hdep p hp hstart
    have hsome : (patterns.find? fun q => jsStartsWith (requestOf dep) q).isSome = true :=
      List.find?_isSome.mpr ⟨p, hp, hstart⟩
    obtain ⟨p0, hm⟩ := Option.isSome_iff_exists.mp hsome
    have hm' : firstMatch patterns (requestOf dep) = some p0 := hm
    obtain ⟨l1, l2, hsplit, hf, hprev⟩ := find?_split _ patterns p0 hm
    obtain ⟨ps, hl, hmem⟩ :=
      findingHas_scanModules patterns excl modules mod hmod hres hex dep hdep hm'
    have hnd := nodup_of_lookup _ res ps
      (valuesNodup_scanModules patterns excl modules) hl
    exact ⟨p0, l1, l2, ps, hm', hsplit, hf, hprev, hl, hmem, hnd⟩
  · intro h
    exact lookup_scanModules_none patterns excl modules
      (fun mod hmod hres => Or.inr (h mod hmod hres))

/-- Module graph for the C1 witness. -/
def modsOne : List Module := [⟨some "/a.ts", [⟨some "next/image/foo", none⟩]⟩]

/-- C1 witness: the request `next/image/foo` starting with the registered
pattern `next/image` puts the file into the map with that pattern. -/
theorem scanner_prefix_matching_witness :
    ∃ p0 l1 l2 ps,
      firstMatch ["next/image"] (requestOf ⟨some "next/image/foo", none⟩) = some p0 ∧
      ["next/image"] = l1 ++ p0 :: l2 ∧
      jsStartsWith (requestOf ⟨some "next/image/foo", none⟩) p0 = true ∧
      (∀ q ∈ l1, jsStartsWith (requestOf ⟨some "next/image/foo", none⟩) q = false) ∧
      (scanModules ["next/image"] [] modsOne).lookup "/a.ts" = some ps ∧
      p0 ∈ ps ∧ ps.Nodup :=
  (scanner_prefix_matching ["next/image"] [] modsOne "/a.ts").1
    ⟨some "/a.ts", [⟨some "next/image/foo", none⟩]⟩ (List.mem_singleton.mpr rfl)
    rfl (by decide) ⟨some "next/image/foo", none⟩ (List.mem_singleton.mpr rfl)
    "next/image" (by decide) (by decide)

/-- C10 counterexample: with rules registering `next/image` before the empty
pattern, the module importing `next/image/foo` is added to the map, but the
empty pattern is NOT in its matched set — the earlier-registered pattern wins
the per-dependency loop and `break` skips the rest, refuting the claim that
the empty pattern always enters the matched set. -/
theorem empty_pattern_counterexample :
    forbiddenPatternsOf [⟨"next/image", "plain img", none⟩, ⟨"", "anything", none⟩] =
      ["next/image", ""] ∧
    scanModules ["next/image", ""] []
      [⟨some "/a.ts", [⟨some "next/image/foo", none⟩]⟩] =
      [("/a.ts", ["next/image"])] ∧
    ("" ∉ (["next/image"] : List String)) :=
  ⟨by decide, by decide, by decide⟩

/-- C10 (amended): if any registered rule has the empty string as its
pattern, every request string — including the empty-string fallback used when
a dependency carries no request field — matches some pattern (the first
matching one in registration order, which is the empty pattern exactly when
no earlier-registered pattern prefix-matches), so every non-excluded module
with a resource path and at least one dependency is added to the scan map
with that first-matching pattern in its matched set; the registry performs no
non-emptiness check on individual patterns. -/
theorem empty_pattern_matches_everything (patterns : List String)
    (excl : List ExcludePattern) (modules : List Module) (res : String)
    (mod : Module) (dep : Dependency)
    (hp : "" ∈ patterns) (hmod : mod ∈ modules) (hres : mod.resource = some res)
    (hex : shouldExclude res excl = false) (hdep : dep ∈ mod.dependencies) :
    (∀ r : String, (firstMatch patterns r).isSome = true) ∧
    (∃ p ps, firstMatch patterns (requestOf dep) = some p ∧
      (scanModules patterns excl modules).lookup res = some ps ∧ p ∈ ps) ∧
    (∀ alternative : String,
      ∃ ropts, pluginBlockImports
        ⟨.arr [⟨"", alternative, none⟩], none, none, none, none⟩ = .ok ropts) := by
  have hall : ∀ r : String, (firstMatch patterns r).isSome = true := by
    intro r
    refine List.find?_isSome.mpr ⟨"", hp, ?_⟩
    show List.isPrefixOf [] r.data = true
    cases hr : r.data <;> rfl
  refine ⟨hall, ?_, fun alternative => ⟨_, rfl⟩⟩
  obtain ⟨p, hm⟩ := Option.isSome_iff_exists.mp (hall (requestOf dep))
  obtain ⟨ps, hl, hmem⟩ :=
    findingHas_scanModules patterns excl modules mod hmod hres hex dep hdep hm
  exact ⟨p, ps, hm, hl, hmem⟩

/-- Module graph for the C10 witness: the single dependency carries no
request field at all, exercising the empty-string fallback. -/
def modsEmptyPat : List Module := [⟨some "/w.ts", [⟨none, none⟩]⟩]

/-- C10 witness: with the empty pattern registered, a module whose dependency
has no request field still lands in the scan map. -/
theorem empty_pattern_matches_everything_witness :
    ∃ p ps, firstMatch ["next/image", ""] (requestOf ⟨none, none⟩) = some p ∧
      (scanModules ["next/image", ""] [] modsEmptyPat).lookup "/w.ts" = some ps ∧
      p ∈ ps :=
  (empty_pattern_matches_everything ["next/image", ""] [] modsEmptyPat "/w.ts"
    ⟨some "/w.ts", [⟨none, none⟩]⟩ ⟨none, none⟩ (by decide)
    (List.mem_singleton.mpr rfl) rfl (by decide)
    (List.mem_singleton.mpr rfl)).2.1

/-- Characterization of the occurrences recorded for one line. -/
theorem mem_lineOccurrences {imports : List String} {idx : Nat} {lc : String}
    {e : ImportError} :
    e ∈ lineOccurrences imports idx lc ↔
      ∃ pat, pat ∈ imports ∧ ∃ col, lineMatchColumn lc pat = some col ∧
        ImportError.mk pat (idx + 1) col (jsTrim lc) = e := by
  simp [lineOccurrences, List.mem_filterMap, Option.map_eq_some']

/-- Every occurrence of a line carries that line's 1-indexed number. -/
theorem line_of_mem_lineOccurrences {imports : List String} {idx : Nat}
    {lc : String} {e : ImportError} (h : e ∈ lineOccurrences imports idx lc) :
    e.line = idx + 1 := by
  obtain ⟨pat, _, col, _, he⟩ := mem_lineOccurrences.mp h
  rw [← he]

/-- Occurrences of later lines carry larger line numbers. -/
theorem line_lb_of_mem_scanFileLines {imports : List String} :
    ∀ (lines : List String) (idx : Nat) (e : ImportError),
      e ∈ scanFileLines imports idx lines → idx + 1 ≤ e.line := by
  intro lines
  induction lines with
  | nil => intro idx e he; simp [scanFileLines] at he
  | cons lc rest ih =>
    intro idx e he
    rcases List.mem_append.mp he with hl | hr
    · rw [line_of_mem_lineOccurrences hl]
    · have := ih (idx + 1) e hr
      omega

/-- Every occurrence produced by the line scan points back to a physical
line of the file on which its pattern's first matching form matched at its
column, and carries that line's trimmed text. -/
theorem mem_scanFileLines {imports : List String} :
    ∀ (lines : List String) (idx : Nat) (e : ImportError),
      e ∈ scanFileLines imports idx lines →
        e.importName ∈ imports ∧ idx + 1 ≤ e.line ∧
        ∃ lc, lines[e.line - 1 - idx]? = some lc ∧
          lineMatchColumn lc e.importName = some e.column ∧
          e.lineContent = jsTrim lc := by
  intro lines
  induction lines with
  | nil => intro idx e he; simp [scanFileLines] at he
  | cons lc rest ih =>
    intro idx e he
    rcases List.mem_append.mp he with hl | hr
    · obtain ⟨pat, hpat, col, hcol, hmk⟩ := mem_lineOccurrences.mp hl
      obtain rfl : ImportError.mk pat (idx + 1) col (jsTrim lc) = e := hmk
      refine ⟨hpat, Nat.le_refl _, lc, ?_, hcol, rfl⟩
      have h0 : idx + 1 - 1 - idx = 0 := by omega
      rw [show (ImportError.mk pat (idx + 1) col (jsTrim lc)).line = idx + 1 from rfl,
        h0, List.getElem?_cons_zero]
    · obtain ⟨hin, hlb, lc', hget, hcol, hcontent⟩ := ih (idx + 1) e hr
      refine ⟨hin, by omega, lc', ?_, hcol, hcontent⟩
      have hline : idx + 2 ≤ e.line := hlb
      have hidx : e.line - 1 - idx = (e.line - 1 - (idx + 1)) + 1 := by omega
      rw [hidx, List.getElem?_cons_succ]
      exact hget

/-- A filter-map by an option keyed to a constant image is a map over the
filtered list. -/
theorem filterMap_const_map {α β : Type _} (g : α → β) (o : α → Option Nat)
    (l : List α) :
    l.filterMap (fun a => (o a).map fun _ => g a) =
      (l.filter fun a => (o a).isSome).map g := by
  induction l with
  | nil => rfl
  | cons x xs ih =>
    cases hx : o x <;> simp [List.filterMap_cons, List.filter_cons, hx, ih]

/-- The (line, pattern) pairs recorded for one line are the matched patterns
tagged with the line's number. -/
theorem map_pair_lineOccurrences (imports : List String) (idx : Nat) (lc : String) :
    ((lineOccurrences imports idx lc).map fun e => (e.line, e.importName)) =
      (imports.filter fun pat => (lineMatchColumn lc pat).isSome).map
        fun pat => (idx + 1, pat) := by
  unfold lineOccurrences
  rw [List.map_filterMap]
  rw [show (fun pat => Option.map (fun e => (e.line, e.importName))
      (Option.map (fun col => ImportError.mk pat (idx + 1) col (jsTrim lc))
        (lineMatchColumn lc pat))) =
    (fun pat => (lineMatchColumn lc pat).map fun _ => (idx + 1, pat)) from ?_]
  · exact filterMap_const_map _ _ imports
  · funext pat
    cases h : lineMatchColumn lc pat <;> simp [h]

/-- The (line, pattern) pairs of the whole scan are duplicate-free when the
requested pattern set is: at most one occurrence per line and pattern. -/
theorem nodup_pairs_scanFileLines (imports : List String) (h : imports.Nodup) :
    ∀ (lines : List String) (idx : Nat),
      ((scanFileLines imports idx lines).map fun e => (e.line, e.importName)).Nodup := by
  intro lines
  induction lines with
  | nil => intro idx; simp [scanFileLines]
  | cons lc rest ih =>
    intro idx
    rw [show scanFileLines imports idx (lc :: rest) =
      lineOccurrences imports idx lc ++ scanFileLines imports (idx + 1) rest from rfl]
    rw [List.map_append]
    refine List.nodup_append.mpr ⟨?_, ih (idx + 1), ?_⟩
    · rw [map_pair_lineOccurrences]
      exact (h.filter _).map (fun a b hab => (Prod.mk.injEq _ _ _ _ ▸ hab : _ ∧ _).2)
    · intro pr hpr1 hpr2
      obtain ⟨e1, he1, hpr1'⟩ := List.mem_map.mp hpr1
      obtain ⟨e2, he2, hpr2'⟩ := List.mem_map.mp hpr2
      have h1 : pr.1 = idx + 1 := by
        rw [← hpr1']
        exact line_of_mem_lineOccurrences he1
      have h2 : idx + 2 ≤ pr.1 := by
        rw [← hpr2']
        exact line_lb_of_mem_scanFileLines rest (idx + 1) e2 he2
      omega

/-- The three forms are tried in fixed order: a from-form match wins, and
its leftmost index becomes the column. -/
theorem lineMatchColumn_from_form_first (lc pat : String) (i : Nat)
    (h : firstMatchIdx lc.data (fromFormAt lc.data pat.data) = some i) :
    lineMatchColumn lc pat = some i := by
  simp [lineMatchColumn, h]

/-- Line 5 content of the C4 scenario file. -/
def scenarioLine : String := "import Image from " ++ sq ++ "next/image" ++ sq ++ ";"

/-- Full text of the C4 scenario file (the import sits on line 5). -/
def scenarioContent : String := "line1\nline2\nline3\nline4\n" ++ scenarioLine

/-- File system of the C4 scenario. -/
def fsScenario : String → Option String := fun p =>
  if p = "/f.ts" then some scenarioContent else none

/-- C4 (amended): for every readable file the locator records at most one
occurrence per (line, pattern) pair using the first of the three fixed-order
textual forms that matches, and each occurrence carries the 1-indexed line
number, the 0-indexed index of the match start as the column, and the
trimmed line text; in the scenario with pattern `next/image` and line 5
`import Image from 'next/image';`, the occurrence is
`{line:5, column:13, lineContent:"import Image from 'next/image';"}` — the
match starts at the `from` keyword (index 13), not at index 0. -/
theorem locator_occurrence_shape (fs : String → Option String)
    (path content : String) (imports : List String)
    (hfs : fs path = some content) (hnd : imports.Nodup) :
    (((findImportLocations fs path imports).errors.map
      fun e => (e.line, e.importName)).Nodup) ∧
    (∀ e ∈ (findImportLocations fs path imports).errors,
      e.importName ∈ imports ∧ 1 ≤ e.line ∧
      ∃ lc, (splitLines content)[e.line - 1]? = some lc ∧
        lineMatchColumn lc e.importName = some e.column ∧
        e.lineContent = jsTrim lc) ∧
    (∀ (lc pat : String) (i : Nat),
      firstMatchIdx lc.data (fromFormAt lc.data pat.data) = some i →
      lineMatchColumn lc pat = some i) ∧
    (findImportLocations fsScenario "/f.ts" ["next/image"]).errors =
      [⟨"next/image", 5, 13, scenarioLine⟩] := by
  have herr : (findImportLocations fs path imports).errors =
      scanFileLines imports 0 (splitLines content) := by
    unfold findImportLocations
    rw [hfs]
  refine ⟨?_, ?_, ?_, by decide⟩
  · rw [herr]
    exact nodup_pairs_scanFileLines imports hnd (splitLines content) 0
  · intro e he
    rw [herr] at he
    obtain ⟨hin, hlb, lc, hget, hcol, hcontent⟩ :=
      mem_scanFileLines (splitLines content) 0 e he
    refine ⟨hin, hlb, lc, ?_, hcol, hcontent⟩
    rw [show e.line - 1 - 0 = e.line - 1 from rfl] at hget
    exact hget
  · exact lineMatchColumn_from_form_first

/-- C4 counterexample: on the claim's own scenario the recorded column is 13
(the index where the regex match — starting at the `from` keyword — begins),
not 0 as the claim's scenario states. -/
theorem locator_scenario_column_counterexample :
    (findImportLocations fsScenario "/f.ts" ["next/image"]).errors ≠
      [⟨"next/image", 5, 0, scenarioLine⟩] ∧
    (findImportLocations fsScenario "/f.ts" ["next/image"]).errors.map
      ImportError.column = [13] :=
  ⟨by decide, by decide⟩

/-- C4 witness: the per-(line, pattern) uniqueness instantiated on the
scenario file. -/
theorem locator_occurrence_shape_witness :
    (((findImportLocations fsScenario "/f.ts" ["next/image"]).errors.map
      fun e => (e.line, e.importName)).Nodup) :=
  (locator_occurrence_shape fsScenario "/f.ts" scenarioContent ["next/image"]
    rfl (by decide)).1
